import Mathlib

/-!
Verification of the codify code-review tool (src/main.py) against its
natural-language specification.  The Python source is shallowly embedded:
strings are `List Char` where character-level matching matters and `String`
at the interfaces, the `re` patterns used by `_format_review_content` are
modelled by explicit position scans with the same leftmost-match and greedy
semantics, `json.loads` is modelled by a fuel-based recursive-descent parser
over a JSON value type, and the git / LLM collaborators are fields of a
`RepoState` record so that theorems can quantify over their behaviour.
-/

namespace Codify

/-! ## Python string helpers -/

/-- The whitespace class used by Python's `str.strip` and by `\s` in `re`
patterns over ASCII text: space, tab, newline, carriage return, vertical tab
and form feed.  (Python additionally treats some Unicode code points as
whitespace; the inputs handled here are ASCII.) -/
def isPyWs (c : Char) : Bool :=
  c = ' ' || c = '\t' || c = '\n' || c = '\r' || c = '\x0b' || c = '\x0c'

/-- Python `str.strip()`: drop leading and trailing whitespace. -/
def pyStrip (l : List Char) : List Char :=
  ((l.dropWhile isPyWs).reverse.dropWhile isPyWs).reverse

/-- Does `pre` occur at the head of `l`?  (Used to model literal pieces of
the regular expressions in the source.) -/
def listStartsWith (pre l : List Char) : Bool :=
  match pre, l with
  | [], _ => true
  | p :: ps, c :: cs => p = c && listStartsWith ps cs
  | _ :: _, [] => false

/-- Does `pat` occur anywhere inside `l`? -/
def containsSub (l pat : List Char) : Bool :=
  (List.range (l.length + 1)).any (fun i => listStartsWith pat (l.drop i))

/-- Python `s.split(sep='\n')`: split on every newline, keeping empty pieces
(`"".split('\n') == [""]`). -/
def splitNl : List Char → List (List Char)
  | [] => [[]]
  | c :: cs =>
    let r := splitNl cs
    if c = '\n' then [] :: r
    else
      match r with
      | h :: t => (c :: h) :: t
      | [] => [[c]]

/-! ## The regular-expression model for `_format_review_content`

The source (src/main.py, lines 180-192) uses two `re.MULTILINE` searches

  start_pattern : at a line start, optional whitespace, three backticks,
                  an optional literal `json`, optional whitespace, then
                  an opening brace;
  end_pattern   : a closing brace, optional whitespace, three backticks,
                  optional whitespace, then an end of line;

then slices `content[start_match.start() : end_match.end()]` and strips the
fence syntax with two anchored `re.sub` calls (without `re.MULTILINE`).
Each search below returns the leftmost match, and the quantifiers follow
the greedy backtracking of the originals; since every piece after a `\s*`
is a non-whitespace literal, each match is in fact determined. -/

/-- The three-backtick fence marker. -/
def backticks : List Char := ['\x60', '\x60', '\x60']

/-- Match of `\s*\x60\x60\x60(?:json)?\s*\{` at the head of `l` (the body of
the start pattern, after its `^` anchor).  After the backticks, a greedy
optional `json` followed by `\s*\{`; if `json` is present but no brace
follows, backtracking to the empty alternative also fails because the next
character is the letter j, so the test is exact. -/
def fenceOpenAt (l : List Char) : Bool :=
  let r := l.dropWhile isPyWs
  listStartsWith backticks r &&
    (let p := r.drop 3
     if listStartsWith ['j', 's', 'o', 'n'] p then
       ((p.drop 4).dropWhile isPyWs).head? = some '{'
     else
       (p.dropWhile isPyWs).head? = some '{')

/-- Position `i` is a line start of `l` for a `re.MULTILINE` `^`: the start
of the string, or the position just after a newline. -/
def isLineStart (l : List Char) (i : Nat) : Bool :=
  i = 0 || l.getD (i - 1) ' ' = '\n'

/-- `re.search(start_pattern, l, re.MULTILINE)`: the `.start()` position of
the leftmost match, which is the first line start from which the body of the
pattern matches. -/
def findStart (l : List Char) : Option Nat :=
  (List.range (l.length + 1)).find? (fun i => isLineStart l i && fenceOpenAt (l.drop i))

/-- Match length of `\}\s*\x60\x60\x60\s*$` (multiline `$`) at the head of
`l`, where `l` is the suffix of the subject starting at the match position,
so that the end of `l` is the end of the subject.  The final greedy `\s*`
backtracks from the longest whitespace run to the largest position that is
the end of the subject or sits before a newline. -/
def fenceCloseLen (l : List Char) : Option Nat :=
  match l with
  | '}' :: rest =>
    let w1 := (rest.takeWhile isPyWs).length
    let r := rest.drop w1
    if listStartsWith backticks r then
      let after := r.drop 3
      let m := (after.takeWhile isPyWs).length
      match (List.range (m + 1)).reverse.find?
          (fun i => i = after.length || after.getD i ' ' = '\n') with
      | some i => some (1 + w1 + 3 + i)
      | none => none
    else none
  | _ => none

/-- Scan of the end pattern: try each position of the suffix `l` in turn,
`k` being the absolute position of its head, and return the start and
`.end()` of the first match. -/
def findEndAux : List Char → Nat → Option (Nat × Nat)
  | [], _ => none
  | c :: rest, k =>
    match fenceCloseLen (c :: rest) with
    | some len => some (k, k + len)
    | none => findEndAux rest (k + 1)

/-- `re.search(end_pattern, l, re.MULTILINE)`: start and `.end()` of the
leftmost match of the end pattern. -/
def findEnd (l : List Char) : Option (Nat × Nat) :=
  findEndAux l 0

/-- The first match of the end pattern at or after position `s` — the
closing-marker search as claim C2 describes it, used to compare the
implemented extractor with the claimed one. -/
def findEndAfter (l : List Char) (s : Nat) : Option (Nat × Nat) :=
  findEndAux (l.drop s) s

/-- `re.sub(r'^\s*\x60\x60\x60(?:json)?\s*', '', l)` without `re.MULTILINE`:
the anchor limits the single possible match to position 0, and the pattern
removes leading whitespace, the fence, an optional `json` tag and following
whitespace; if the fence is absent nothing is removed. -/
def stripFenceOpen (l : List Char) : List Char :=
  let r := l.dropWhile isPyWs
  if listStartsWith backticks r then
    let p := r.drop 3
    if listStartsWith ['j', 's', 'o', 'n'] p then
      (p.drop 4).dropWhile isPyWs
    else
      p.dropWhile isPyWs
  else l

/-- Does the whole suffix `l` match `\s*\x60\x60\x60\s*$` without
`re.MULTILINE`?  The trailing `$` only matches at the end of the subject or
before a final newline, and a newline is itself whitespace, so a match must
consume whitespace, the fence, then whitespace running to the very end. -/
def fenceSuffixMatchAt (l : List Char) : Bool :=
  let r := l.dropWhile isPyWs
  listStartsWith backticks r && (r.drop 3).all isPyWs

/-- `re.sub(r'\s*\x60\x60\x60\s*$', '', l)` without `re.MULTILINE`: remove
from the leftmost position whose suffix matches the pattern to the end. -/
def stripFenceClose (l : List Char) : List Char :=
  match (List.range (l.length + 1)).find? (fun k => fenceSuffixMatchAt (l.drop k)) with
  | some k => l.take k
  | none => l

/-! ## A model of `json.loads`

`json.loads` (Python standard library, default strict mode) is modelled by a
fuel-based recursive-descent parser.  Objects keep their fields in written
order and a repeated name is resolved by the last binding, as Python's
`dict` construction does; numeric literals are kept as their lexeme, since
the source never computes with parsed numbers.  Exhausted fuel returns
`none`, matching the fact that Python's recursion limit on deeply nested
input also surfaces as a failed parse to the caller in the source. -/

/-- A parsed JSON value. -/
inductive JVal where
  | null : JVal
  | bool (b : Bool) : JVal
  | num (lexeme : List Char) : JVal
  | str (s : List Char) : JVal
  | arr (elems : List JVal) : JVal
  | obj (fields : List (List Char × JVal)) : JVal

/-- JSON interelement whitespace: space, tab, newline, carriage return. -/
def isJsonWs (c : Char) : Bool :=
  c = ' ' || c = '\t' || c = '\n' || c = '\r'

/-- Skip JSON whitespace. -/
def skipJsonWs (l : List Char) : List Char := l.dropWhile isJsonWs

/-- Value of one hexadecimal digit, on the code point. -/
def hexVal (c : Char) : Option Nat :=
  let n := c.toNat
  if 48 ≤ n && n ≤ 57 then some (n - 48)
  else if 97 ≤ n && n ≤ 102 then some (n - 87)
  else if 65 ≤ n && n ≤ 70 then some (n - 55)
  else none

/-- Four hexadecimal digits, as used by a `\uXXXX` escape. -/
def parseHex4 : List Char → Option (Nat × List Char)
  | a :: b :: c :: d :: rest =>
    match hexVal a, hexVal b, hexVal c, hexVal d with
    | some x, some y, some z, some w => some (((x * 16 + y) * 16 + z) * 16 + w, rest)
    | _, _, _, _ => none
  | _ => none

/-- Body of a JSON string after its opening quote: decode escapes, reject a
raw control character (strict mode) and stop at the closing quote.  A
`\uXXXX` escape is decoded when it denotes a valid scalar code point. -/
def parseJStringBody : Nat → List Char → Option (List Char × List Char)
  | 0, _ => none
  | _, [] => none
  | fuel + 1, c :: rest =>
    if c = '"' then some ([], rest)
    else if c = '\\' then
      match rest with
      | [] => none
      | e :: rest2 =>
        let cont := fun (ch : Char) (r : List Char) =>
          (parseJStringBody fuel r).map (fun p => (ch :: p.1, p.2))
        if e = '"' then cont '"' rest2
        else if e = '\\' then cont '\\' rest2
        else if e = '/' then cont '/' rest2
        else if e = 'b' then cont '\x08' rest2
        else if e = 'f' then cont '\x0c' rest2
        else if e = 'n' then cont '\n' rest2
        else if e = 'r' then cont '\r' rest2
        else if e = 't' then cont '\t' rest2
        else if e = 'u' then
          match parseHex4 rest2 with
          | some (n, rest3) =>
            if h : n.isValidChar then cont (Char.ofNatAux n h) rest3 else none
          | none => none
        else none
    else if c.toNat < 32 then none
    else (parseJStringBody fuel rest).map (fun p => (c :: p.1, p.2))

/-- Leading run of decimal digits, with the rest. -/
def digitRun (l : List Char) : List Char × List Char :=
  (l.takeWhile Char.isDigit, l.dropWhile Char.isDigit)

/-- Integer part of a JSON number: `0`, or a nonzero digit followed by any
digits. -/
def parseIntPart : List Char → Option (List Char × List Char)
  | [] => none
  | c :: rest =>
    if c = '0' then some (['0'], rest)
    else if c.isDigit then
      let p := digitRun rest
      some (c :: p.1, p.2)
    else none

/-- A JSON numeric literal `-?int frac? exp?`, returned as its lexeme.  A
dot or exponent marker not followed by a digit is not consumed, as in the
scanner regex of the Python implementation. -/
def parseNum (l : List Char) : Option (List Char × List Char) :=
  let (neg, l1) := match l with
    | '-' :: r => (['-'], r)
    | _ => (([] : List Char), l)
  match parseIntPart l1 with
  | none => none
  | some (ip, l2) =>
    let (fr, l3) := match l2 with
      | '.' :: r =>
        let p := digitRun r
        if p.1 = [] then (([] : List Char), l2) else ('.' :: p.1, p.2)
      | _ => (([] : List Char), l2)
    let (ex, l4) := match l3 with
      | e :: r =>
        if e = 'e' || e = 'E' then
          let (sgn, r1) := match r with
            | '+' :: r2 => (['+'], r2)
            | '-' :: r2 => (['-'], r2)
            | _ => (([] : List Char), r)
          let p := digitRun r1
          if p.1 = [] then (([] : List Char), l3) else (e :: sgn ++ p.1, p.2)
        else (([] : List Char), l3)
      | _ => (([] : List Char), l3)
    some (neg ++ ip ++ fr ++ ex, l4)

mutual

/-- One JSON value at the head of `l` (whitespace already skipped), with the
unconsumed rest.  Python's non-standard `NaN`, `Infinity` and `-Infinity`
constants are accepted, as `json.loads` does by default. -/
def parseValue : Nat → List Char → Option (JVal × List Char)
  | 0, _ => none
  | fuel + 1, l =>
    match l with
    | '"' :: rest => (parseJStringBody (fuel + 1) rest).map (fun p => (JVal.str p.1, p.2))
    | '{' :: rest => parseObjRest fuel (skipJsonWs rest) []
    | '[' :: rest => parseArrRest fuel (skipJsonWs rest) []
    | _ =>
      if listStartsWith ['t', 'r', 'u', 'e'] l then some (JVal.bool true, l.drop 4)
      else if listStartsWith ['f', 'a', 'l', 's', 'e'] l then some (JVal.bool false, l.drop 5)
      else if listStartsWith ['n', 'u', 'l', 'l'] l then some (JVal.null, l.drop 4)
      else if listStartsWith ['N', 'a', 'N'] l then some (JVal.num ['N', 'a', 'N'], l.drop 3)
      else if listStartsWith "Infinity".toList l then
        some (JVal.num "Infinity".toList, l.drop 8)
      else if listStartsWith "-Infinity".toList l then
        some (JVal.num "-Infinity".toList, l.drop 9)
      else (parseNum l).map (fun p => (JVal.num p.1, p.2))

/-- Members of an object after its opening brace (whitespace skipped): an
empty object, or `"key" : value` pairs separated by commas; a trailing comma
is rejected because after a comma only a quote may follow. -/
def parseObjRest : Nat → List Char → List (List Char × JVal) →
    Option (JVal × List Char)
  | 0, _, _ => none
  | fuel + 1, l, acc =>
    match l with
    | '}' :: rest => if acc.isEmpty then some (JVal.obj [], rest) else none
    | '"' :: rest =>
      match parseJStringBody (fuel + 1) rest with
      | none => none
      | some (k, r1) =>
        match skipJsonWs r1 with
        | ':' :: r3 =>
          match parseValue fuel (skipJsonWs r3) with
          | none => none
          | some (v, r4) =>
            match skipJsonWs r4 with
            | ',' :: r6 => parseObjRest fuel (skipJsonWs r6) ((k, v) :: acc)
            | '}' :: r6 => some (JVal.obj (((k, v) :: acc).reverse), r6)
            | _ => none
        | _ => none
    | _ => none

/-- Elements of an array after its opening bracket (whitespace skipped). -/
def parseArrRest : Nat → List Char → List JVal → Option (JVal × List Char)
  | 0, _, _ => none
  | fuel + 1, l, acc =>
    match l with
    | ']' :: rest => if acc.isEmpty then some (JVal.arr [], rest) else none
    | _ =>
      match parseValue fuel l with
      | none => none
      | some (v, r1) =>
        match skipJsonWs r1 with
        | ',' :: r2 => parseArrRest fuel (skipJsonWs r2) (v :: acc)
        | ']' :: r2 => some (JVal.arr ((v :: acc).reverse), r2)
        | _ => none

end

/-- `json.loads`: skip surrounding whitespace, parse one value, and require
that nothing but whitespace remains. -/
def jsonLoads (l : List Char) : Option JVal :=
  match parseValue (l.length + 1) (skipJsonWs l) with
  | some (v, rest) => if skipJsonWs rest = [] then some v else none
  | none => none

/-- Lookup in a parsed object as on the Python `dict` built by `json.loads`:
a repeated key is resolved by its last binding. -/
def dictGetLast (fields : List (List Char × JVal)) (k : List Char) : Option JVal :=
  match fields.reverse.find? (fun p => p.1 = k) with
  | some p => some p.2
  | none => none

/-! ## `CodeReviewer._format_review_content` -/

/-- Result of `_format_review_content`.  The Python function is annotated as
returning `str`, but `data.get('response', json_content)` hands back the
parsed field unconverted, so a non-string JSON value under the `response`
key is returned as that value; `jsonVal` records this case. -/
inductive ExtractResult where
  | text (s : List Char) : ExtractResult
  | jsonVal (v : JVal) : ExtractResult

/-- Is the result an actual string? -/
def ExtractResult.isText : ExtractResult → Bool
  | .text _ => true
  | .jsonVal _ => false

/-- The slice `content[start_match.start() : end_match.end()]` (line 189 of
src/main.py); Python slicing yields the empty string when the end precedes
the start, as does `take` under truncated subtraction. -/
def fenceSlice (content : List Char) (s e : Nat) : List Char :=
  (content.drop s).take (e - s)

/-- `CodeReviewer._format_review_content` (src/main.py, lines 175-208).
The input is stripped; if both the start and the end pattern match, the
slice between the leftmost matches is unwrapped and parsed.  A parse that
yields an object returns its `response` field when present (the raw JSON
value if it is not a string), and the unwrapped text otherwise.  A failed
parse returns the stripped input (the `json.JSONDecodeError` branch), and a
successful parse of a non-object also returns the stripped input, because
`data.get` raises `AttributeError`, which the enclosing handler turns into
the same fallback.  When either pattern fails to match, the stripped input
is returned unchanged. -/
def format_review_content (raw : List Char) : ExtractResult :=
  let content := pyStrip raw
  match findStart content, findEnd content with
  | some s, some (_, e) =>
    let json_content := stripFenceClose (stripFenceOpen (fenceSlice content s e))
    match jsonLoads json_content with
    | some (JVal.obj fields) =>
      match dictGetLast fields "response".toList with
      | some (JVal.str v) => .text v
      | some v => .jsonVal v
      | none => .text json_content
    | some _ => .text content
    | none => .text content
  | _, _ => .text content

/-- The extractor as claim C2 words it: identical to
`format_review_content` except that the block end is the first closing
match that appears at or after the opening match, rather than the first
closing match anywhere.  This definition follows the claim and exists only
to be compared with the implemented one. -/
def format_review_content_claimC2 (raw : List Char) : ExtractResult :=
  let content := pyStrip raw
  match findStart content with
  | some s =>
    match findEndAfter content s with
    | some (_, e) =>
      let json_content := stripFenceClose (stripFenceOpen (fenceSlice content s e))
      match jsonLoads json_content with
      | some (JVal.obj fields) =>
        match dictGetLast fields "response".toList with
        | some (JVal.str v) => .text v
        | some v => .jsonVal v
        | none => .text json_content
      | some _ => .text content
      | none => .text content
    | none => .text content
  | none => .text content

/-! ## `GitHandler`

The repository and its git binary are a collaborator: `RepoState` carries
the local branch names, the tracked paths of `repo.tree().traverse()`, and
the text produced by `repo.git.diff` — `diffCmd range files` for a content
diff (an empty `files` list stands for the call without path arguments) and
`nameOnlyDiff range` for `--name-only`.  Every error the source raises is a
`click.ClickException` distinguished by its message, so errors are modelled
as `Except String`.  Inside `get_branch_diff` the source wraps its whole
body in `try/except Exception`, and `click.ClickException` is itself an
`Exception`, so every error raised in that body — the self-comparison one
included — is re-raised with the prefix `Error getting diff: `. -/

/-- The state of the repository plus its external git behaviour. -/
structure RepoState where
  heads : List String
  treeFiles : List String
  diffCmd : String → List String → String
  nameOnlyDiff : String → String

/-- `DEFAULT_BASE_BRANCHES` (src/main.py, line 20). -/
def DEFAULT_BASE_BRANCHES : List String := ["main", "master"]

/-- `GitHandler.get_default_base_branch` (lines 61-68): the first of `main`,
`master` present among the local heads, else a `ClickException`. -/
def get_default_base_branch (r : RepoState) : Except String String :=
  match DEFAULT_BASE_BRANCHES.find? (fun b => r.heads.contains b) with
  | some b => Except.ok b
  | none => Except.error "No default base branch found. Expected one of: main, master"

/-- The message of the self-comparison `ClickException` (lines 77-80),
before the `except Exception` wrapping. -/
def selfComparisonMsg (branch_name : String) : String :=
  "Cannot compare " ++ branch_name ++
    " with itself. Please specify a different branch to review."

/-- The checks of `GitHandler.get_branch_diff` after base resolution
(lines 76-114), before the `except` clauses: reject self-comparison, check
that both branches exist, validate every requested file against the
tracked tree (failing on the first missing one), then run the diff and
reject an empty result.  A `files` argument that is `None` or the empty
list is falsy in Python, so both skip the file path. -/
def get_branch_diff_checks (r : RepoState) (branch_name base : String)
    (files : Option (List String)) : Except String String :=
  if branch_name = base then
    Except.error (selfComparisonMsg branch_name)
  else if ¬ r.heads.contains branch_name then
    Except.error ("Branch \x27" ++ branch_name ++ "\x27 not found")
  else if ¬ r.heads.contains base then
    Except.error ("Base branch \x27" ++ base ++ "\x27 not found")
  else
    match files with
    | some (f :: fs) =>
      match (f :: fs).find? (fun file => ¬ r.treeFiles.contains file) with
      | some missing => Except.error ("File not found in repository: " ++ missing)
      | none =>
        let d := r.diffCmd (base ++ "..." ++ branch_name) (f :: fs)
        if d = "" then
          Except.error ("No changes found between " ++ branch_name ++ " and " ++ base
            ++ " for the specified files: " ++ String.intercalate ", " (f :: fs))
        else Except.ok d
    | _ =>
      let d := r.diffCmd (base ++ "..." ++ branch_name) []
      if d = "" then
        Except.error ("No changes found between " ++ branch_name ++ " and " ++ base)
      else Except.ok d

/-- Body of `get_branch_diff` including base resolution (lines 73-74): a
`None` base falls back to the detected default. -/
def get_branch_diff_body (r : RepoState) (branch_name : String)
    (base_branch : Option String) (files : Option (List String)) :
    Except String String :=
  match base_branch with
  | some b => get_branch_diff_checks r branch_name b files
  | none =>
    match get_default_base_branch r with
    | Except.ok b => get_branch_diff_checks r branch_name b files
    | Except.error e => Except.error e

/-- `GitHandler.get_branch_diff` (lines 70-118): the body above, with every
raised exception — `ClickException` being a subclass of `Exception` —
caught by `except Exception` and re-wrapped. -/
def get_branch_diff (r : RepoState) (branch_name : String)
    (base_branch : Option String) (files : Option (List String)) :
    Except String String :=
  match get_branch_diff_body r branch_name base_branch files with
  | Except.ok d => Except.ok d
  | Except.error e => Except.error ("Error getting diff: " ++ e)

/-- Python `s.split('\n')` on a `String`. -/
def pySplitNl (s : String) : List String :=
  (splitNl s.toList).map (fun l => String.mk l)

/-- `GitHandler.get_changed_files` (lines 120-134): resolve the base if
absent, run a `--name-only` diff of `base...branch`, split on newlines and
drop empty entries.  Its `try` only catches `git.GitCommandError`, so the
`ClickException` of a failed base resolution propagates unwrapped. -/
def get_changed_files (r : RepoState) (branch_name : String)
    (base_branch : Option String) : Except String (List String) :=
  match base_branch with
  | some base =>
    Except.ok ((pySplitNl (r.nameOnlyDiff (base ++ "..." ++ branch_name))).filter
      (fun f => f ≠ ""))
  | none =>
    match get_default_base_branch r with
    | Except.ok base =>
      Except.ok ((pySplitNl (r.nameOnlyDiff (base ++ "..." ++ branch_name))).filter
        (fun f => f ≠ ""))
    | Except.error e => Except.error e

/-! ## `Config` and the persisted configuration

`Config` is a Python dataclass whose instance attributes can be rebound to
arbitrary values by `setattr` (the `config set` command stores every value
as the raw command-line string), so the model keeps the instance dictionary
explicitly: an ordered association list from attribute names to `PyVal`
values.  A `PyVal` is a string, a JSON number (kept as a rational, since
the source never computes with it), or a `ReviewMode` member. -/

/-- `ReviewMode` (src/main.py, lines 22-25). -/
inductive ReviewMode where
  | normal : ReviewMode
  | security : ReviewMode
  | performance : ReviewMode
deriving DecidableEq

/-- `ReviewMode.value`: the lowercase string tag of a member. -/
def ReviewMode.value : ReviewMode → String
  | .normal => "normal"
  | .security => "security"
  | .performance => "performance"

/-- The `ReviewMode(s)` enum constructor on a string: the member with that
value, or a `ValueError`. -/
def reviewModeOfString (s : String) : Option ReviewMode :=
  if s = "normal" then some .normal
  else if s = "security" then some .security
  else if s = "performance" then some .performance
  else none

/-- A Python value held in a config attribute or a config-file field. -/
inductive PyVal where
  | str (s : String) : PyVal
  | num (q : ℚ) : PyVal
  | mode (m : ReviewMode) : PyVal
deriving DecidableEq

/-- `DEFAULT_MODEL` (line 17). -/
def DEFAULT_MODEL : String := "gpt-4o"

/-- `DEFAULT_TEMPERATURE` (line 18). -/
def DEFAULT_TEMPERATURE : ℚ := 0

/-- A JSON object as read from or written to `.codify.config`. -/
abbrev CfgDict := List (String × PyVal)

/-- `data.get(key, default)` on a config dictionary. -/
def dictGetD (d : CfgDict) (k : String) (dflt : PyVal) : PyVal :=
  match d.find? (fun p => p.1 = k) with
  | some p => p.2
  | none => dflt

/-- The `Config` instance: its attribute dictionary, in insertion order. -/
structure Config where
  attrs : List (String × PyVal)
deriving DecidableEq

/-- Build a `Config` with the four dataclass fields in declaration order,
as `Config(...)` does. -/
def Config.make (model temperature review_mode base_branch : PyVal) : Config :=
  ⟨[("model", model), ("temperature", temperature),
    ("review_mode", review_mode), ("base_branch", base_branch)]⟩

/-- `Config()` with the dataclass defaults (lines 29-32). -/
def Config.default : Config :=
  Config.make (.str DEFAULT_MODEL) (.num DEFAULT_TEMPERATURE) (.mode .normal) (.str "main")

/-- Attribute lookup, `AttributeError` when absent. -/
def Config.getattrE (c : Config) (k : String) : Except String PyVal :=
  match c.attrs.find? (fun p => p.1 = k) with
  | some p => Except.ok p.2
  | none =>
    Except.error ("\x27Config\x27 object has no attribute \x27" ++ k ++ "\x27")

/-- Rebind an attribute in place, or append a new one, as assignment to an
instance dictionary does. -/
def setAssoc : List (String × PyVal) → String → PyVal → List (String × PyVal)
  | [], k, v => [(k, v)]
  | (k', v') :: rest, k, v =>
    if k' = k then (k, v) :: rest else (k', v') :: setAssoc rest k v

/-- Python `setattr(config, k, v)`. -/
def Config.setattr (c : Config) (k : String) (v : PyVal) : Config :=
  ⟨setAssoc c.attrs k v⟩

/-- The methods defined on the `Config` class itself; `hasattr` reports
them as attributes even though they are not dataclass fields.  (Python
would also report inherited dunder attributes; the model covers the names
declared in the class.) -/
def configMethodNames : List String := ["to_dict", "from_dict"]

/-- Python `hasattr(config, k)`: an instance attribute or a class method. -/
def Config.hasattr (c : Config) (k : String) : Bool :=
  (c.attrs.find? (fun p => p.1 = k)).isSome || configMethodNames.contains k

/-- `Config.to_dict` (lines 34-40): read the four attributes and take
`.value` on `review_mode`; when `review_mode` holds a plain string or a
number rather than an enum member, the attribute access raises. -/
def Config.to_dict (c : Config) : Except String CfgDict := do
  let m ← c.getattrE "model"
  let t ← c.getattrE "temperature"
  let rm ← c.getattrE "review_mode"
  let rmv ← match rm with
    | .mode md => Except.ok (PyVal.str md.value)
    | .str _ => Except.error "\x27str\x27 object has no attribute \x27value\x27"
    | .num _ => Except.error "\x27float\x27 object has no attribute \x27value\x27"
  let bb ← c.getattrE "base_branch"
  Except.ok [("model", m), ("temperature", t), ("review_mode", rmv), ("base_branch", bb)]

/-- `Config.from_dict` (lines 42-49): each field from the dictionary with
its default, unknown keys never consulted; `ReviewMode(x)` accepts a valid
tag string or an existing member and raises `ValueError` otherwise. -/
def Config.from_dict (d : CfgDict) : Except String Config :=
  let mkC := fun (rm : ReviewMode) =>
    Except.ok (Config.make (dictGetD d "model" (.str DEFAULT_MODEL))
      (dictGetD d "temperature" (.num DEFAULT_TEMPERATURE))
      (.mode rm)
      (dictGetD d "base_branch" (.str "main")))
  match dictGetD d "review_mode" (.str "normal") with
  | .str s =>
    match reviewModeOfString s with
    | some m => mkC m
    | none => Except.error ("\x27" ++ s ++ "\x27 is not a valid ReviewMode")
  | .mode m => mkC m
  | .num _ => Except.error "not a valid ReviewMode"

/-- The `.codify.config` file: absent, a parsed JSON object, or emptied —
the state `open(path, 'w')` leaves behind when `json.dump` raises after the
truncation. -/
inductive PyFile where
  | absent : PyFile
  | json (d : CfgDict) : PyFile
  | empty : PyFile
deriving DecidableEq

/-- `CodeReviewer._load_config` (lines 147-157): defaults when the file is
absent; otherwise parse and `from_dict`, any exception degrading to the
defaults with a warning. -/
def load_config (f : PyFile) : Config :=
  match f with
  | .absent => Config.default
  | .empty => Config.default
  | .json d =>
    match Config.from_dict d with
    | Except.ok c => c
    | Except.error _ => Config.default

/-- `CodeReviewer._save_config` (lines 159-165) viewed from the call
`self.config.to_dict()`: an instance attribute shadowing `to_dict` (always
a string here, written by `config set`) is not callable; otherwise the
class method runs.  The result is the dictionary handed to `json.dump`. -/
def save_config_dict (c : Config) : Except String CfgDict :=
  match c.attrs.find? (fun p => p.1 = "to_dict") with
  | some _ => Except.error "\x27str\x27 object is not callable"
  | none => c.to_dict

/-- `config_set` (src/main.py, lines 368-382): load the config, test the
key with `hasattr`, rebind it to the raw string value and save.  The file
result records that `open(path, 'w')` truncates before `json.dump` runs,
so a failing save leaves the file empty rather than untouched.  Returns
the text printed and the resulting file. -/
def config_set (f : PyFile) (key value : String) : String × PyFile :=
  let c := load_config f
  if c.hasattr key then
    let c' := c.setattr key (.str value)
    match save_config_dict c' with
    | Except.ok d => ("✓ Set " ++ key ++ "=" ++ value, PyFile.json d)
    | Except.error e => ("Error: Error saving config: " ++ e, PyFile.empty)
  else
    ("Error: Unknown configuration key: " ++ key, f)

/-- Rendering of an attribute value by `click.echo(f"{key}={value}")`. -/
def PyVal.show : PyVal → String
  | .str s => s
  | .num q => toString q
  | .mode m => "ReviewMode." ++ m.value

/-- `config_get` (lines 384-396): load the config and echo `key=value` for
a known attribute; a method name passes `hasattr` and echoes the bound
method object, rendered here as a placeholder. -/
def config_get (f : PyFile) (key : String) : String :=
  let c := load_config f
  if c.hasattr key then
    match c.attrs.find? (fun p => p.1 = key) with
    | some p => key ++ "=" ++ p.2.show
    | none => key ++ "=<bound method>"
  else
    "Error: Unknown configuration key: " ++ key

/-! ## `CodeReviewer.review_branch`

The orchestrator (src/main.py, lines 210-287).  The configuration fields it
reads (`base_branch`, `model`, `temperature`) are passed as plain values,
and the `litellm.completion` collaborator is a function from model,
temperature and the two messages to the raw response text, so theorems can
quantify over the collaborator's behaviour.  The source re-raises any
`click.ClickException` unchanged (its `except click.ClickException` clause
comes first), which the `Except` bind models directly. -/

/-- The Python type name of a decoded JSON value that is not a string
(`float` standing for both numeric shapes when the lexeme is fractional). -/
def pyTypeName : JVal → String
  | .null => "NoneType"
  | .bool _ => "bool"
  | .num lex =>
    if lex.any (fun c => c = '.' || c = 'e' || c = 'E' || c = 'I' || c = 'N')
    then "float" else "int"
  | .str _ => "str"
  | .arr _ => "list"
  | .obj _ => "dict"

/-- The fixed default system message (lines 252-257). -/
def default_system_msg : String :=
  "You are an experienced code reviewer. Analyze the code changes and provide " ++
  "constructive feedback following the given guidelines. Format your response " ++
  "in markdown with clear sections for different types of findings. " ++
  "Be concise but thorough, focusing on impactful changes and potential issues."

/-- `files_info` (lines 223-227): the requested files when a non-empty
filter was supplied (an empty list is falsy), else the changed files. -/
def build_files_info (files : Option (List String)) (changed_files : List String) : String :=
  match files with
  | some (f :: fs) =>
    "\nReviewing specific files:\n" ++
      String.intercalate "\n" (((f :: fs)).map (fun x => "- " ++ x))
  | _ =>
    "\nChanged files:\n" ++
      String.intercalate "\n" (changed_files.map (fun x => "- " ++ x))

/-- The review-guideline block of the user message (lines 234-246). -/
def reviewGuidelines : String :=
  "**Review Guidelines:**\n" ++
  "1. **Focus Areas:**\n" ++
  "   - Identify specific lines or sections that need attention\n" ++
  "   - Evaluate code quality and adherence to best practices\n" ++
  "   - Check for potential bugs and edge cases\n" ++
  "   - Assess performance implications\n" ++
  "   - Review security considerations\n\n" ++
  "2. **Review Approach:**\n" ++
  "   - Prioritize critical issues over minor style concerns\n" ++
  "   - Highlight well-written code and effective solutions\n" ++
  "   - Suggest improvements only when they add significant value\n" ++
  "   - Be specific in your feedback and recommendations"

/-- The user message (lines 231-250). -/
def build_user_msg (branch_name base files_info diff : String) : String :=
  "Reviewing changes in branch \x27" ++ branch_name ++ "\x27 compared to \x27" ++
    base ++ "\x27.\n" ++ files_info ++ "\n\n" ++ reviewGuidelines ++
    "\n\nPlease review the following changes:\n\n" ++ diff

/-- `CodeReviewer.review_branch` (lines 210-287): resolve a falsy base to
the configured base branch, collect the changed files, build the prompt,
get the diff, call the completion collaborator, and pipe the raw response
through `_format_review_content` followed by `.strip()`.  A non-string
result of the formatter makes the final `.strip()` raise, which the outer
handler wraps as `Error during review:`; `ClickException`s from the git
layer pass through unwrapped. -/
def review_branch (r : RepoState) (cfgBase cfgModel : String) (cfgTemp : ℚ)
    (completionFn : String → ℚ → String → String → String)
    (branch_name : String) (base_branch : Option String)
    (files : Option (List String)) (system_msg : Option String) :
    Except String String :=
  let base := match base_branch with
    | some b => if b = "" then cfgBase else b
    | none => cfgBase
  match get_changed_files r branch_name (some base) with
  | Except.error e => Except.error e
  | Except.ok changed_files =>
    let files_info := build_files_info files changed_files
    match get_branch_diff r branch_name (some base) files with
    | Except.error e => Except.error e
    | Except.ok diff =>
      let user_msg := build_user_msg branch_name base files_info diff
      let sys := match system_msg with
        | some s => if s = "" then default_system_msg else s
        | none => default_system_msg
      let raw := completionFn cfgModel cfgTemp sys user_msg
      match format_review_content raw.toList with
      | .text t => Except.ok (String.mk (pyStrip t))
      | .jsonVal v =>
        Except.error ("Error during review: \x27" ++ pyTypeName v ++
          "\x27 object has no attribute \x27strip\x27")

/-! ## Spec-side definitions and concrete fixtures -/

/-- The changed-files list as the spec words it for claim C7: the name-only
diff output decomposed into its newline-separated segments with the empty
segments discarded and the remaining order untouched.  Written as a direct
recursion on the text, to be proved equal to the split-then-filter of the
implementation. -/
def nonEmptyLines : List Char → List (List Char)
  | [] => []
  | c :: cs =>
    let seg := (c :: cs).takeWhile (fun x => x ≠ '\n')
    let rest := ((c :: cs).dropWhile (fun x => x ≠ '\n')).drop 1
    if seg = [] then nonEmptyLines rest else seg :: nonEmptyLines rest
termination_by l => l.length
decreasing_by
  all_goals
    simp only [List.length_drop]
    have h1 : ∀ (p : Char → Bool) (l : List Char), (l.dropWhile p).length ≤ l.length := by
      intro p l
      induction l with
      | nil => simp [List.dropWhile]
      | cons a as ih =>
        simp only [List.dropWhile]
        by_cases h : p a
        · simp [h]; omega
        · simp [h]
    have h2 := h1 (fun x => x ≠ '\n') (c :: cs)
    simp only [List.length_cons] at h2 ⊢
    omega

/-- The spec-side changed-files function on the diff text. -/
def spec_changed_files (s : String) : List String :=
  (nonEmptyLines s.toList).map (fun l => String.mk l)

/-- A raw model response wrapping `R` in a fenced JSON object — the
round-trip input of claim C4. -/
def roundTripRaw : String :=
  "\x60\x60\x60json\n\x7b\"response\": \"R\"\x7d\n\x60\x60\x60"

/-- A raw response whose text shows a closing sequence on its first line,
before the fenced JSON block: the first match of the end pattern then ends
at position 4 while the first opening match starts at position 5. -/
def strayCloseRaw : String :=
  "\x7d\x60\x60\x60\n\x60\x60\x60json\n\x7b\"response\": \"R\"\x7d\n\x60\x60\x60"

/-- A fenced block holding a truncated JSON object, which fails to parse. -/
def truncatedRaw : String :=
  "\x60\x60\x60json\n\x7b\"response\": \"tru\n\x7d\x60\x60\x60"

/-- A fenced block whose `response` field holds a number, not a string. -/
def numberResponseRaw : String :=
  "\x60\x60\x60json\n\x7b\"response\": 42\x7d\n\x60\x60\x60"

/-- A concrete repository for the self-comparison scenario of the source's
own test `test_git_handler_same_branch_error`: `main` plus one feature
branch, so that remediation guidance could name `feature-123`. -/
def twoBranchRepo : RepoState :=
  { heads := ["main", "feature-123"]
    treeFiles := ["test.py", "file1.py"]
    diffCmd := fun _ _ => "mock diff content"
    nameOnlyDiff := fun _ => "file1.py\n" }

/-! ## Helper lemmas -/

/-- Whatever the persisted file holds, loading yields a config whose four
attributes are exactly the dataclass fields in declaration order, with
`review_mode` an actual enum member: `from_dict` validates the mode and
every failure degrades to the defaults. -/
theorem load_config_shape (f : PyFile) :
    ∃ m t rm bb, load_config f = Config.make m t (PyVal.mode rm) bb := by
  cases f with
  | absent => exact ⟨_, _, ReviewMode.normal, _, rfl⟩
  | empty => exact ⟨_, _, ReviewMode.normal, _, rfl⟩
  | json d =>
    rcases hd : dictGetD d "review_mode" (PyVal.str "normal") with s | q | m
    · rcases hs : reviewModeOfString s with _ | mm
      · refine ⟨PyVal.str DEFAULT_MODEL, PyVal.num DEFAULT_TEMPERATURE, ReviewMode.normal,
          PyVal.str "main", ?_⟩
        simp [load_config, Config.from_dict, hd, hs, Config.default]
      · refine ⟨dictGetD d "model" (PyVal.str DEFAULT_MODEL),
          dictGetD d "temperature" (PyVal.num DEFAULT_TEMPERATURE), mm,
          dictGetD d "base_branch" (PyVal.str "main"), ?_⟩
        simp [load_config, Config.from_dict, hd, hs]
    · refine ⟨PyVal.str DEFAULT_MODEL, PyVal.num DEFAULT_TEMPERATURE, ReviewMode.normal,
        PyVal.str "main", ?_⟩
      simp [load_config, Config.from_dict, hd, Config.default]
    · refine ⟨dictGetD d "model" (PyVal.str DEFAULT_MODEL),
        dictGetD d "temperature" (PyVal.num DEFAULT_TEMPERATURE), m,
        dictGetD d "base_branch" (PyVal.str "main"), ?_⟩
      simp [load_config, Config.from_dict, hd]

/-! ## Claims -/

/-- Claim C1: the spec — and the repository's own test
`test_git_handler_same_branch_error` — require the self-comparison error to
carry structured remediation guidance: a direct `codify review` invocation,
a `git checkout` instruction, and, since another local branch exists, a
concrete example naming it.  Evaluating `get_branch_diff` at the failing
input `("main", base "main")` in a repository with branches `main` and
`feature-123` shows the code raises only the bare wrapped message, which
contains none of the three required elements. -/
theorem C1_self_comparison_error_is_bare :
    get_branch_diff twoBranchRepo "main" (some "main") none =
      Except.error ("Error getting diff: " ++ selfComparisonMsg "main") ∧
    containsSub ("Error getting diff: " ++ selfComparisonMsg "main").toList
      "codify review".toList = false ∧
    containsSub ("Error getting diff: " ++ selfComparisonMsg "main").toList
      "git checkout".toList = false ∧
    containsSub ("Error getting diff: " ++ selfComparisonMsg "main").toList
      "feature-123".toList = false :=
  ⟨rfl, rfl, rfl, rfl⟩

/-- Claim C10: for every persisted file and every string value `v`,
`config set review_mode v` stores `v` as a raw string in the in-memory
config — not as a `ReviewMode` member — so `to_dict` hits `.value` on a
plain string and the save step fails with the wrapped `AttributeError`,
leaving the truncated file behind instead of a persisted new mode. -/
theorem C10_review_mode_set_breaks_save (f : PyFile) (v : String) :
    ((load_config f).setattr "review_mode" (PyVal.str v)).attrs.find?
      (fun p => p.1 = "review_mode") = some ("review_mode", PyVal.str v) ∧
    config_set f "review_mode" v =
      ("Error: Error saving config: \x27str\x27 object has no attribute \x27value\x27",
        PyFile.empty) := by
  obtain ⟨m, t, rm, bb, h⟩ := load_config_shape f
  rw [config_set, h]
  exact ⟨rfl, rfl⟩

/-- Claim C9, counterexample: the key `to_dict` is outside the four Config
field names, yet `config set to_dict x` on a well-formed persisted file does
not produce the unrecognized-key error — the `hasattr` guard admits the
method name — and it does not leave the file unchanged: the truncating
open followed by the failing dump empties it. -/
theorem C9_counterexample_to_dict_key :
    config_set (PyFile.json [("model", PyVal.str "gpt-4o"),
        ("temperature", PyVal.num 0), ("review_mode", PyVal.str "normal"),
        ("base_branch", PyVal.str "main")]) "to_dict" "x" =
      ("Error: Error saving config: \x27str\x27 object is not callable",
        PyFile.empty) ∧
    PyFile.empty ≠ PyFile.json [("model", PyVal.str "gpt-4o"),
        ("temperature", PyVal.num 0), ("review_mode", PyVal.str "normal"),
        ("base_branch", PyVal.str "main")] ∧
    containsSub "Error: Error saving config: \x27str\x27 object is not callable".toList
      "Unknown configuration key".toList = false :=
  ⟨rfl, fun h => PyFile.noConfusion h, rfl⟩

/-- Claim C9 (amended): `config set` accepts any key that `hasattr` reports
on the `Config` object — the four field names and also its method names
such as `to_dict` — rather than only the four field names.  A key that is
not a Config attribute (such as `foo`) produces the unrecognized-key error
and leaves the persisted file untouched, and setting `model` then reading
it back returns the value set. -/
theorem C9_hasattr_gates_config_set :
    (∀ (f : PyFile) (key value : String),
      (load_config f).hasattr key = false →
      config_set f key value = ("Error: Unknown configuration key: " ++ key, f)) ∧
    (∀ (f : PyFile) (v : String),
      config_get (config_set f "model" v).2 "model" = "model=" ++ v) := by
  constructor
  · intro f key value h
    simp [config_set, h]
  · intro f v
    obtain ⟨m, t, rm, bb, hsh⟩ := load_config_shape f
    rw [config_set, hsh]
    cases rm <;> rfl

/-- Witness for C9: the unrecognized key `foo` on an absent file, and the
set-then-get round trip for `model=test-model`, both concrete. -/
theorem C9_hasattr_gates_config_set_witness :
    config_set PyFile.absent "foo" "bar" =
      ("Error: Unknown configuration key: foo", PyFile.absent) ∧
    config_get (config_set PyFile.absent "model" "test-model").2 "model" =
      "model=test-model" :=
  ⟨C9_hasattr_gates_config_set.1 PyFile.absent "foo" "bar" rfl,
   C9_hasattr_gates_config_set.2 PyFile.absent "test-model"⟩

/-- Claim C8: for every valid config — a string model, a rational
temperature, an enum review mode and a string base branch —
`from_dict (to_dict c)` restores `c` exactly; loading from an empty
dictionary applies every default; and a field absent from the four known
names is never consulted, so unknown fields are ignored on load. -/
theorem C8_config_roundtrip_defaults_unknown :
    (∀ (m bb : String) (t : ℚ) (rm : ReviewMode),
      Except.bind
        ((Config.make (PyVal.str m) (PyVal.num t) (PyVal.mode rm) (PyVal.str bb)).to_dict)
        Config.from_dict =
      Except.ok (Config.make (PyVal.str m) (PyVal.num t) (PyVal.mode rm) (PyVal.str bb))) ∧
    Config.from_dict [] = Except.ok Config.default ∧
    (∀ (k : String) (v : PyVal) (d : CfgDict),
      k ∉ ["model", "temperature", "review_mode", "base_branch"] →
      Config.from_dict ((k, v) :: d) = Config.from_dict d) := by
  refine ⟨?_, rfl, ?_⟩
  · intro m bb t rm
    cases rm <;> rfl
  · intro k v d hk
    simp only [List.mem_cons, List.mem_singleton, not_or] at hk
    obtain ⟨h1, h2, h3, h4⟩ := hk
    simp [Config.from_dict, dictGetD, List.find?_cons, h1, h2, h3, h4]

/-- Witness for C8: the concrete config of the repository's own
serialization test (`custom-model`, temperature one half, security mode,
base `develop`) round-trips, and the unknown field `foo` is ignored. -/
theorem C8_config_roundtrip_defaults_unknown_witness :
    Except.bind
      ((Config.make (PyVal.str "custom-model") (PyVal.num (1 / 2))
        (PyVal.mode ReviewMode.security) (PyVal.str "develop")).to_dict)
      Config.from_dict =
      Except.ok (Config.make (PyVal.str "custom-model") (PyVal.num (1 / 2))
        (PyVal.mode ReviewMode.security) (PyVal.str "develop")) ∧
    Config.from_dict [("foo", PyVal.str "bar"), ("model", PyVal.str "m1")] =
      Config.from_dict [("model", PyVal.str "m1")] :=
  ⟨C8_config_roundtrip_defaults_unknown.1 "custom-model" "develop" (1 / 2)
      ReviewMode.security,
   C8_config_roundtrip_defaults_unknown.2.2 "foo" (PyVal.str "bar")
      [("model", PyVal.str "m1")] (by decide)⟩

/-- When the leftmost match of the end pattern starts at or after position
`s`, restricting the scan to positions from `s` on finds the same match. -/
theorem findEndAux_drop (l : List Char) (k s p e : Nat)
    (h : findEndAux l k = some (p, e)) (hks : k ≤ s) (hsp : s ≤ p) :
    findEndAux (l.drop (s - k)) s = some (p, e) := by
  induction l generalizing k s with
  | nil => simp [findEndAux] at h
  | cons c rest ih =>
    cases hf : fenceCloseLen (c :: rest) with
    | some len =>
      simp only [findEndAux, hf, Option.some.injEq, Prod.mk.injEq] at h
      obtain ⟨hp, he⟩ := h
      have hsk : s = k := by omega
      subst hsk
      simp only [Nat.sub_self, List.drop_zero, findEndAux, hf, Option.some.injEq,
        Prod.mk.injEq]
      exact ⟨hp, he⟩
    | none =>
      simp only [findEndAux, hf] at h
      rcases Nat.eq_or_lt_of_le hks with rfl | hlt
      · simp only [Nat.sub_self, List.drop_zero, findEndAux, hf]
        exact h
      · have hstep := ih (k + 1) s h hlt hsp
        have hd : (c :: rest).drop (s - k) = rest.drop (s - (k + 1)) := by
          have h1 : s - k = (s - (k + 1)) + 1 := by omega
          rw [h1]
          rfl
        rw [hd]
        exact hstep

/-- Claim C2, counterexample: on a response whose first line already shows
a closing sequence before the opening fence, the implemented extractor uses
that earlier closing match — `end` position 4, before the opening at 5 — so
the slice is empty and the whole input is returned, while the extractor the
claim describes would use the closing match at 29 and return `R`. -/
theorem C2_counterexample_stray_close :
    findStart (pyStrip strayCloseRaw.toList) = some 5 ∧
    findEnd (pyStrip strayCloseRaw.toList) = some (0, 4) ∧
    findEndAfter (pyStrip strayCloseRaw.toList) 5 = some (29, 34) ∧
    format_review_content strayCloseRaw.toList =
      ExtractResult.text strayCloseRaw.toList ∧
    format_review_content_claimC2 strayCloseRaw.toList = ExtractResult.text ['R'] ∧
    strayCloseRaw.toList ≠ ['R'] :=
  ⟨rfl, rfl, rfl, rfl, rfl, by decide⟩

/-- Claim C2 (amended): the extractor slices from the first opening match
to the end of the first closing match anywhere in the input, not the first
one after the opening.  When that closing match ends at or before the
opening position the slice is empty, the parse fails, and the trimmed input
comes back unchanged; when it starts at or after the opening position the
behaviour coincides with the claimed slicing. -/
theorem C2_first_close_anywhere :
    (∀ (raw : List Char) (s p e : Nat),
      findStart (pyStrip raw) = some s →
      findEnd (pyStrip raw) = some (p, e) →
      e ≤ s →
      format_review_content raw = ExtractResult.text (pyStrip raw)) ∧
    (∀ (raw : List Char) (s p e : Nat),
      findStart (pyStrip raw) = some s →
      findEnd (pyStrip raw) = some (p, e) →
      s ≤ p →
      format_review_content raw = format_review_content_claimC2 raw) := by
  constructor
  · intro raw s p e h1 h2 hle
    have hz : e - s = 0 := Nat.sub_eq_zero_of_le hle
    simp only [format_review_content, h1, h2, fenceSlice, hz, List.take_zero]
    rfl
  · intro raw s p e h1 h2 hsp
    have hAfter : findEndAfter (pyStrip raw) s = some (p, e) := by
      have := findEndAux_drop (pyStrip raw) 0 s p e h2 (Nat.zero_le s) hsp
      simpa [findEndAfter] using this
    simp only [format_review_content, format_review_content_claimC2, h1, h2, hAfter]

/-- Witness for C2: the stray-close input falls back to the trimmed input
(its first closing match ends at 4, before the opening at 5), and on the
well-formed round-trip input, whose first closing match starts at 24 after
the opening at 0, the implemented and the claimed extractor agree. -/
theorem C2_first_close_anywhere_witness :
    format_review_content strayCloseRaw.toList =
      ExtractResult.text (pyStrip strayCloseRaw.toList) ∧
    format_review_content roundTripRaw.toList =
      format_review_content_claimC2 roundTripRaw.toList :=
  ⟨C2_first_close_anywhere.1 strayCloseRaw.toList 5 0 4 rfl rfl (by decide),
   C2_first_close_anywhere.2 roundTripRaw.toList 0 24 29 rfl rfl (by decide)⟩

/-- Claim C3, counterexample: the claim says extract returns a string for
every input, but on a fenced object whose `response` field holds the number
42 the code returns `data.get('response')` unconverted — the parsed number,
not a string. -/
theorem C3_counterexample_nonstring_response :
    (format_review_content numberResponseRaw.toList).isText = false ∧
    format_review_content numberResponseRaw.toList =
      ExtractResult.jsonVal (JVal.num ['4', '2']) :=
  ⟨rfl, rfl⟩

/-- Claim C3 (amended): the extractor is total and never raises, and
whenever a fenced block is found whose unwrapped content fails to parse as
JSON, the result is exactly the whitespace-trimmed raw input; the result is
however the raw `response` value rather than a string when a parsed object
carries a non-string `response` field.  Totality holds by construction of
the embedding (`format_review_content` is a total function); the theorem
states the parse-failure clause. -/
theorem C3_parse_failure_returns_trimmed_input :
    ∀ (raw : List Char) (s p e : Nat),
      findStart (pyStrip raw) = some s →
      findEnd (pyStrip raw) = some (p, e) →
      jsonLoads (stripFenceClose (stripFenceOpen (fenceSlice (pyStrip raw) s e))) = none →
      format_review_content raw = ExtractResult.text (pyStrip raw) := by
  intro raw s p e h1 h2 h3
  simp only [format_review_content, h1, h2, h3]

/-- Witness for C3: the truncated-object input — the fence is found (opening
at 0, closing match ending at 30), its content fails to parse, and the
extractor returns the trimmed input. -/
theorem C3_parse_failure_returns_trimmed_input_witness :
    format_review_content truncatedRaw.toList =
      ExtractResult.text (pyStrip truncatedRaw.toList) :=
  C3_parse_failure_returns_trimmed_input truncatedRaw.toList 0 26 30 rfl rfl rfl

/-- Claim C4: when the input carries a fenced JSON block that parses to an
object, the extractor returns the `response` field when present — its text
when it is a string, the raw value otherwise — and the unwrapped JSON text
itself when no `response` field exists. -/
theorem C4_response_field_extraction :
    ∀ (raw : List Char) (s p e : Nat) (fields : List (List Char × JVal)),
      findStart (pyStrip raw) = some s →
      findEnd (pyStrip raw) = some (p, e) →
      jsonLoads (stripFenceClose (stripFenceOpen (fenceSlice (pyStrip raw) s e))) =
        some (JVal.obj fields) →
      (∀ v, dictGetLast fields "response".toList = some (JVal.str v) →
        format_review_content raw = ExtractResult.text v) ∧
      (∀ v, dictGetLast fields "response".toList = some v →
        (∀ w, v ≠ JVal.str w) →
        format_review_content raw = ExtractResult.jsonVal v) ∧
      (dictGetLast fields "response".toList = none →
        format_review_content raw =
          ExtractResult.text (stripFenceClose (stripFenceOpen
            (fenceSlice (pyStrip raw) s e)))) := by
  intro raw s p e fields h1 h2 h3
  refine ⟨?_, ?_, ?_⟩
  · intro v hv
    simp only [format_review_content, h1, h2, h3, hv]
  · intro v hv hnot
    cases v with
    | str w => exact absurd rfl (hnot w)
    | null => simp only [format_review_content, h1, h2, h3, hv]
    | bool b => simp only [format_review_content, h1, h2, h3, hv]
    | num lex => simp only [format_review_content, h1, h2, h3, hv]
    | arr xs => simp only [format_review_content, h1, h2, h3, hv]
    | obj fs => simp only [format_review_content, h1, h2, h3, hv]
  · intro hv
    simp only [format_review_content, h1, h2, h3, hv]

/-- Witness for C4: the round-trip input of the claim, whose fenced object
is exactly a string field `response = R`, extracts to exactly `R`. -/
theorem C4_response_field_extraction_witness :
    format_review_content roundTripRaw.toList = ExtractResult.text ['R'] :=
  (C4_response_field_extraction roundTripRaw.toList 0 24 29
      [("response".toList, JVal.str ['R'])] rfl rfl rfl).1 ['R'] rfl

/-- Claim C5: for every branch name `A` and every base-resolution path —
explicit base `A`, auto-detected base `A`, or (second conjunct) the
configured base `A` reaching `get_branch_diff` through `review_branch` —
the diff fails with the self-comparison error.  No hypothesis requires `A`
to be a local branch: the check runs after base resolution and before the
branch-existence checks. -/
theorem C5_self_comparison_always_fails :
    (∀ (r : RepoState) (A : String) (base : Option String)
        (files : Option (List String)),
      (base = some A ∨ (base = none ∧ get_default_base_branch r = Except.ok A)) →
      get_branch_diff r A base files =
        Except.error ("Error getting diff: " ++ selfComparisonMsg A)) ∧
    (∀ (r : RepoState) (cfgModel : String) (cfgTemp : ℚ)
        (cf : String → ℚ → String → String → String)
        (A : String) (files : Option (List String)) (sys : Option String),
      review_branch r A cfgModel cfgTemp cf A none files sys =
        Except.error ("Error getting diff: " ++ selfComparisonMsg A)) := by
  constructor
  · intro r A base files h
    rcases h with rfl | ⟨rfl, hdef⟩
    · simp [get_branch_diff, get_branch_diff_body, get_branch_diff_checks]
    · simp [get_branch_diff, get_branch_diff_body, get_branch_diff_checks, hdef]
  · intro r cfgModel cfgTemp cf A files sys
    simp [review_branch, get_changed_files, get_branch_diff, get_branch_diff_body,
      get_branch_diff_checks]

/-- Witness for C5: the self-comparison error fires for the branch `ghost`,
which does not exist in the repository at all, and for the configured-base
path of `review_branch` on `feature-123`. -/
theorem C5_self_comparison_always_fails_witness :
    get_branch_diff twoBranchRepo "ghost" (some "ghost") none =
      Except.error ("Error getting diff: " ++ selfComparisonMsg "ghost") ∧
    review_branch twoBranchRepo "feature-123" "gpt-4o" 0 (fun _ _ _ _ => "")
        "feature-123" none none none =
      Except.error ("Error getting diff: " ++ selfComparisonMsg "feature-123") :=
  ⟨C5_self_comparison_always_fails.1 twoBranchRepo "ghost" (some "ghost") none
      (Or.inl rfl),
   C5_self_comparison_always_fails.2 twoBranchRepo "gpt-4o" 0 (fun _ _ _ _ => "")
      "feature-123" none none⟩

/-- Claim C6: a non-empty file filter containing a path absent from the
tracked tree makes the review fail with the file-not-found error naming the
first missing path.  The statement quantifies over the content-diff
function `dc` and the completion function `cf`, and the resulting error is
the same fixed message for all of them: no content diff is computed for the
request and no completion call influences the outcome. -/
theorem C6_missing_file_blocks_review :
    ∀ (heads treeFiles : List String) (dc : String → List String → String)
      (nd : String → String) (cfgBase cfgModel : String) (cfgTemp : ℚ)
      (cf : String → ℚ → String → String → String)
      (branch base m : String) (f : String) (fs : List String)
      (sys : Option String),
      base ≠ "" →
      branch ≠ base →
      heads.contains branch = true →
      heads.contains base = true →
      (f :: fs).find? (fun file => ¬ treeFiles.contains file) = some m →
      review_branch ⟨heads, treeFiles, dc, nd⟩ cfgBase cfgModel cfgTemp cf
          branch (some base) (some (f :: fs)) sys =
        Except.error ("Error getting diff: File not found in repository: " ++ m) := by
  intro heads treeFiles dc nd cfgBase cfgModel cfgTemp cf branch base m f fs sys
  intro hbase hne hb1 hb2 hfind
  have hb1' : branch ∈ heads := by simpa using hb1
  have hb2' : base ∈ heads := by simpa using hb2
  have hfind' : (f :: fs).find? (fun file => !decide (file ∈ treeFiles)) = some m := by
    simpa using hfind
  simp [review_branch, get_changed_files, get_branch_diff, get_branch_diff_body,
    get_branch_diff_checks, hbase, hne, hb1', hb2', hfind']
  rw [← String.append_assoc]
  rfl

/-- Witness for C6: the spec scenario — `files=["missing.py"]` absent from
a tree containing only `a.py` — fails with the error naming `missing.py`,
for one concrete diff and completion function. -/
theorem C6_missing_file_blocks_review_witness :
    review_branch ⟨["main", "feature-x"], ["a.py"], fun _ _ => "d", fun _ => "a.py"⟩
        "main" "gpt-4o" 0 (fun _ _ _ _ => "ok") "feature-x" (some "main")
        (some ["missing.py"]) none =
      Except.error ("Error getting diff: File not found in repository: missing.py") :=
  C6_missing_file_blocks_review ["main", "feature-x"] ["a.py"] (fun _ _ => "d")
    (fun _ => "a.py") "main" "gpt-4o" 0 (fun _ _ _ _ => "ok") "feature-x" "main"
    "missing.py" "missing.py" [] none (by decide) (by decide) rfl rfl rfl

/-- Unfolding `nonEmptyLines` at the empty list. -/
theorem nonEmptyLines_nil : nonEmptyLines [] = [] := by
  rw [nonEmptyLines]

/-- Unfolding `nonEmptyLines` at a cons cell. -/
theorem nonEmptyLines_cons (d : Char) (ds : List Char) :
    nonEmptyLines (d :: ds) =
      if (d :: ds).takeWhile (fun x => x ≠ '\n') = []
      then nonEmptyLines (((d :: ds).dropWhile (fun x => x ≠ '\n')).drop 1)
      else (d :: ds).takeWhile (fun x => x ≠ '\n') ::
        nonEmptyLines (((d :: ds).dropWhile (fun x => x ≠ '\n')).drop 1) := by
  rw [nonEmptyLines]

/-- If `splitNl cs` is its first newline-free segment followed by a tail
whose non-empty entries are the non-empty lines of the remainder, then
filtering `splitNl cs` yields exactly the non-empty lines of `cs`. -/
theorem filter_eq_nonEmptyLines_of (cs : List Char)
    (hA : ∃ t, splitNl cs = cs.takeWhile (fun x => x ≠ '\n') :: t ∧
      t.filter (fun l => l ≠ []) =
        nonEmptyLines ((cs.dropWhile (fun x => x ≠ '\n')).drop 1)) :
    (splitNl cs).filter (fun l => l ≠ []) = nonEmptyLines cs := by
  obtain ⟨t, h1, h2⟩ := hA
  cases cs with
  | nil =>
    rw [nonEmptyLines_nil]
    rfl
  | cons d ds =>
    rw [h1, List.filter_cons, nonEmptyLines_cons]
    by_cases hseg : (d :: ds).takeWhile (fun x => x ≠ '\n') = []
    · rw [if_pos hseg, hseg, if_neg (by simp)]
      exact h2
    · rw [if_neg hseg, if_pos (by simpa using hseg), h2]

/-- The head of `splitNl cs` is the leading newline-free segment of `cs`,
and the non-empty entries of its tail are the non-empty lines of what
follows the first newline. -/
theorem splitNl_shape (cs : List Char) :
    ∃ t, splitNl cs = cs.takeWhile (fun x => x ≠ '\n') :: t ∧
      t.filter (fun l => l ≠ []) =
        nonEmptyLines ((cs.dropWhile (fun x => x ≠ '\n')).drop 1) := by
  induction cs with
  | nil => exact ⟨[], rfl, by simp [nonEmptyLines_nil]⟩
  | cons c cs ih =>
    obtain ⟨t₀, h1, h2⟩ := ih
    by_cases hc : c = '\n'
    · subst hc
      refine ⟨splitNl cs, by simp [splitNl], ?_⟩
      have hB := filter_eq_nonEmptyLines_of cs ⟨t₀, h1, h2⟩
      simpa using hB
    · refine ⟨t₀, by simp [splitNl, hc, h1], ?_⟩
      simpa [hc] using h2

/-- Filtering the Python split on newlines gives the non-empty lines. -/
theorem splitNl_filter (cs : List Char) :
    (splitNl cs).filter (fun l => l ≠ []) = nonEmptyLines cs :=
  filter_eq_nonEmptyLines_of cs (splitNl_shape cs)

/-- A `String` built from a character list is empty iff the list is. -/
theorem mk_eq_empty_iff (l : List Char) : String.mk l = "" ↔ l = [] := by
  constructor
  · intro h
    have := congrArg String.data h
    simpa using this
  · intro h
    subst h
    rfl

/-- Dropping empty strings after wrapping lists as strings is the same as
wrapping after dropping empty lists. -/
theorem filter_map_mk (xs : List (List Char)) :
    ((xs.map (fun l => String.mk l)).filter (fun f => f ≠ "")) =
      (xs.filter (fun l => l ≠ [])).map (fun l => String.mk l) := by
  induction xs with
  | nil => rfl
  | cons x rest ih =>
    rw [List.map_cons, List.filter_cons, List.filter_cons]
    by_cases hx : x = []
    · subst hx
      rw [if_neg (by simp), if_neg (by simp)]
      exact ih
    · have hmk : ¬(String.mk x = "") := fun h => hx ((mk_eq_empty_iff x).mp h)
      rw [if_pos (by simpa using hmk), if_pos (by simpa using hx), List.map_cons, ih]

/-- Claim C7: for every pair of branches, the changed-files list equals the
name-only diff of `base...branch` split on newlines with empty entries
discarded, in the diff tool's own order — `spec_changed_files` is the
spec-worded decomposition, proved equal to the implementation's
split-then-filter.  `get_changed_files` takes no file filter (mirroring the
source signature), so the list is computed independently of any filter
supplied to the review. -/
theorem C7_changed_files_name_only_split (r : RepoState) (branch base : String) :
    get_changed_files r branch (some base) =
      Except.ok (spec_changed_files (r.nameOnlyDiff (base ++ "..." ++ branch))) := by
  simp only [get_changed_files, spec_changed_files, pySplitNl]
  rw [filter_map_mk, splitNl_filter]

end Codify
